import Mathlib

/-!
Shallow embedding of the Watchify server (`src/watchify_server.mjs`): the
`/stream` request handler, the `keepTorrentAlive` sliding-TTL cache, the
torrent error handler and the response-close handler.  JavaScript numbers
produced by `parseInt` are modelled by `JSNum` (an integer or `NaN`);
strings stay Lean `String`s.  Node's single-threaded event loop is modelled
by running the synchronous segments of the handlers as atomic steps on an
explicit `ServerState`.
-/

namespace Watchify

/-- Result of JavaScript `parseInt` and of arithmetic on such results:
either an integer or `NaN`. -/
inductive JSNum where
  | nan : JSNum
  | int : Int → JSNum
deriving DecidableEq

/-- JavaScript subtraction: `NaN` is absorbing. -/
def JSNum.sub : JSNum → JSNum → JSNum
  | .int a, .int b => .int (a - b)
  | _, _ => .nan

/-- JavaScript addition: `NaN` is absorbing. -/
def JSNum.add : JSNum → JSNum → JSNum
  | .int a, .int b => .int (a + b)
  | _, _ => .nan

/-- JavaScript number-to-string conversion on integers and `NaN`
(as used by template-literal interpolation in the source). -/
def JSNum.toStr : JSNum → String
  | .nan => "NaN"
  | .int a => toString a

/-- JavaScript `<=` on numbers: any comparison involving `NaN` is false. -/
def JSNum.le : JSNum → JSNum → Bool
  | .int a, .int b => decide (a ≤ b)
  | _, _ => false

/-- Numeric value of a string of decimal digits. -/
def digitsVal (ds : List Char) : Nat :=
  ds.foldl (fun n c => 10 * n + (c.toNat - '0'.toNat)) 0

/-- JavaScript `parseInt(s, 10)`: skip leading whitespace, read an optional
sign and then the longest prefix of decimal digits; `NaN` when no digit is
found. -/
def parseIntJS (s : String) : JSNum :=
  let cs := s.data.dropWhile (fun c => c = ' ' || c = '\t' || c = '\n' || c = '\r')
  match cs with
  | '-' :: rest =>
      let ds := rest.takeWhile Char.isDigit
      if ds.isEmpty then .nan else .int (-(digitsVal ds : Int))
  | '+' :: rest =>
      let ds := rest.takeWhile Char.isDigit
      if ds.isEmpty then .nan else .int (digitsVal ds)
  | _ =>
      let ds := cs.takeWhile Char.isDigit
      if ds.isEmpty then .nan else .int (digitsVal ds)

/-- Drop the first occurrence of `pat` from a character list, as JavaScript
`str.replace(pat, "")` with a non-global pattern does. -/
def dropFirstOcc (pat : List Char) : List Char → List Char
  | [] => []
  | c :: cs =>
      if (c :: cs).take pat.length = pat then (c :: cs).drop pat.length
      else c :: dropFirstOcc pat cs

/-- The source's `range.replace(/bytes=/, "")`. -/
def stripBytesEq (s : String) : String :=
  String.mk (dropFirstOcc "bytes=".data s.data)

/-- Accumulator-passing core of `splitOnDash`. -/
def splitOnDashAux : List Char → List Char → List String
  | acc, [] => [String.mk acc.reverse]
  | acc, c :: rest =>
      if c = '-' then String.mk acc.reverse :: splitOnDashAux [] rest
      else splitOnDashAux (c :: acc) rest

/-- JavaScript `str.split("-")`: the segments of `s` between occurrences of
`'-'`, keeping empty segments (`"a-"` gives `["a", ""]`, `"-a"` gives
`["", "a"]`, `""` gives `[""]`). -/
def splitOnDash (s : String) : List String :=
  splitOnDashAux [] s.data

/-- The derived range of one request: `start`, `end` and `chunkSize` as the
source computes them.  The source's `end` is called `stop` here because
`end` is a Lean keyword. -/
structure ParsedRange where
  start : JSNum
  stop : JSNum
  chunkSize : JSNum
deriving DecidableEq

/-- Range parsing exactly as the `/stream` handler performs it:
`const parts = range.replace(/bytes=/, "").split("-");`
`const start = parseInt(parts[0], 10);`
`const end = parts[1] ? parseInt(parts[1], 10) : fileSize - 1;`
`const chunkSize = (end - start) + 1;`
`parts[1]` is falsy when it is absent or the empty string. -/
def parseRange (range : String) (fileSize : Nat) : ParsedRange :=
  let parts := splitOnDash (stripBytesEq range)
  let start := parseIntJS (parts.headD "")
  let stop :=
    match parts[1]? with
    | some p => if p = "" then JSNum.int ((fileSize : Int) - 1) else parseIntJS p
    | none => JSNum.int ((fileSize : Int) - 1)
  { start := start, stop := stop, chunkSize := (stop.sub start).add (.int 1) }

/-- The bounds invariant `0 ≤ start ≤ end ≤ L - 1` claimed of the derived
range, stated with JavaScript comparison semantics (false on `NaN`). -/
def rangeWithinBounds (r : String) (L : Nat) : Bool :=
  let p := parseRange r L
  (JSNum.le (.int 0) p.start && JSNum.le p.start p.stop)
    && JSNum.le p.stop (.int ((L : Int) - 1))

/-- One file of a torrent: its name and byte length. -/
structure MediaFile where
  name : String
  length : Nat
deriving DecidableEq

/-- JavaScript `s.endsWith(suffix)`: the last characters of `s` are
exactly `suffix`. -/
def endsWithStr (s suffix : String) : Bool :=
  s.data.reverse.take suffix.data.length == suffix.data.reverse

/-- The predicate of the source's `torrent.files.find(...)` callback:
the file name ends in `.mp4`, `.mkv` or `.avi`. -/
def isVideoFile (f : MediaFile) : Bool :=
  endsWithStr f.name ".mp4" || endsWithStr f.name ".mkv" || endsWithStr f.name ".avi"

/-- `torrent.files.find(file => ...)`: the first file whose name has a
playable media extension. -/
def selectVideoFile (files : List MediaFile) : Option MediaFile :=
  files.find? isVideoFile

/-- The observable head of an HTTP response as the handler produces it:
status, the headers the handler sets, the JSON error body when one is sent,
and the read stream the handler opens (`file.createReadStream`): the file
name together with the `{start, end}` options, `none` options in the
full-content branch, and no stream at all on error responses. -/
structure ResponseHead where
  status : Nat
  contentRange : Option String
  contentLength : Option JSNum
  contentType : Option String
  acceptRanges : Option String
  jsonError : Option String
  readStream : Option (String × Option (JSNum × JSNum))
deriving DecidableEq

/-- The template literal `` `bytes ${start}-${end}/${fileSize}` ``. -/
def contentRangeStr (start stop : JSNum) (fileSize : Nat) : String :=
  "bytes " ++ start.toStr ++ "-" ++ stop.toStr ++ "/" ++ toString fileSize

/-- Response head of the range branch (status 206, `writeHead` at line 113
of the source, stream opened with the parsed `{start, end}`). -/
def rangeHead (file : MediaFile) (range : String) : ResponseHead :=
  let p := parseRange range file.length
  { status := 206
    contentRange := some (contentRangeStr p.start p.stop file.length)
    contentLength := some p.chunkSize
    contentType := some "video/mp4"
    acceptRanges := some "bytes"
    jsonError := none
    readStream := some (file.name, some (p.start, p.stop)) }

/-- Response head of the full-content branch (status 200, `writeHead` at
line 132 of the source, stream opened with no options). -/
def fullHead (file : MediaFile) : ResponseHead :=
  { status := 200
    contentRange := none
    contentLength := some (.int (file.length : Int))
    contentType := some "video/mp4"
    acceptRanges := some "bytes"
    jsonError := none
    readStream := some (file.name, none) }

/-- Response head of `res.status(code).json({ error: msg })`. -/
def errorHead (code : Nat) (msg : String) : ResponseHead :=
  { status := code
    contentRange := none
    contentLength := none
    contentType := none
    acceptRanges := none
    jsonError := some msg
    readStream := none }

/-- One WebTorrent torrent held by the client.  `tid` is the Lean-side
identity of the session object; destroyed torrents are removed from the
client's list, so no destroyed flag is needed. -/
structure Torrent where
  tid : Nat
  infoHash : String
  ready : Bool
  files : List MediaFile
deriving DecidableEq

/-- One armed `setTimeout` handle: its id, the `torrent.infoHash` captured
by its closure, and the absolute time at which it fires. -/
structure TimerRec where
  id : Nat
  key : String
  fireAt : Nat
deriving DecidableEq

/-- One per-request read stream, identified by `sid`. -/
structure StreamHandle where
  sid : Nat
  destroyed : Bool
deriving DecidableEq

/-- The mutable state of the server process: the WebTorrent client's
torrent list, the `activeTorrents` map (association list, insertion at the
back), the set of live timers, the per-request read streams, fresh-id
counters, a count of `client.add` calls (swarm-session creations), and the
current wall-clock time in milliseconds. -/
structure ServerState where
  torrents : List Torrent
  nextTid : Nat
  addCount : Nat
  activeTorrents : List (String × Nat)
  timers : List TimerRec
  nextTimerId : Nat
  streams : List StreamHandle
  now : Nat
deriving DecidableEq

/-- `TORRENT_TTL = 10 * 60 * 1000`. -/
def TORRENT_TTL : Nat := 10 * 60 * 1000

/-- WebTorrent resolves a magnet URI to the info hash it carries; the
resolution is injective on distinct contents and is modelled here as the
identity on identifier strings. -/
def infoHashOfMagnet (magnet : String) : String := magnet

/-- `client.get(magnet)`: the client's torrent whose info hash matches the
magnet, if any. -/
def clientGet (s : ServerState) (magnet : String) : Option Torrent :=
  s.torrents.find? (fun t => t.infoHash == infoHashOfMagnet magnet)

/-- `keepTorrentAlive(torrent)` (lines 161-177 of the source): clear the
timeout held by the existing `activeTorrents` entry if there is one, arm a
fresh timeout at `now + TORRENT_TTL`, and store the entry. -/
def keepTorrentAlive (s : ServerState) (key : String) : ServerState :=
  let cleared :=
    match s.activeTorrents.find? (fun e => e.1 == key) with
    | some e => s.timers.filter (fun tm => tm.id != e.2)
    | none => s.timers
  { s with
    timers := cleared ++ [{ id := s.nextTimerId, key := key, fireAt := s.now + TORRENT_TTL }]
    activeTorrents := s.activeTorrents.filter (fun e => e.1 != key) ++ [(key, s.nextTimerId)]
    nextTimerId := s.nextTimerId + 1 }

/-- A `keepTorrentAlive` call happening at wall-clock time `u`. -/
def refreshAt (s : ServerState) (u : Nat) (key : String) : ServerState :=
  keepTorrentAlive { s with now := u } key

/-- The timeout callback of `keepTorrentAlive` firing.  A timer may fire
only once its deadline has been reached; the callback destroys the torrent
(removing it from the client) and deletes the `activeTorrents` entry. -/
def fireTimer (s : ServerState) (tmId : Nat) : ServerState :=
  match s.timers.find? (fun tm => tm.id == tmId && decide (tm.fireAt ≤ s.now)) with
  | none => s
  | some tm =>
      { s with
        timers := s.timers.filter (fun x => x.id != tmId)
        torrents := s.torrents.filter (fun t => t.infoHash != tm.key)
        activeTorrents := s.activeTorrents.filter (fun e => e.1 != tm.key) }

/-- The `torrent.on('error')` handler (lines 153-157): destroy the torrent
(removing it from the client's list) and delete its `activeTorrents`
entry.  The armed timeout is not cleared by this handler. -/
def torrentErrorHandler (s : ServerState) (key : String) : ServerState :=
  { s with
    torrents := s.torrents.filter (fun t => t.infoHash != key)
    activeTorrents := s.activeTorrents.filter (fun e => e.1 != key) }

/-- The `res.on('close')` handler for the request whose read stream is
`sid` (lines 122-126 and 146-150): destroy that stream if not already
destroyed, then `keepTorrentAlive(torrent)`. -/
def resCloseHandler (s : ServerState) (sid : Nat) (key : String) : ServerState :=
  let streams1 :=
    s.streams.map (fun st => if st.sid == sid then { st with destroyed := true } else st)
  keepTorrentAlive { s with streams := streams1 } key

/-- The `stream.on('error')` handler (lines 117-120 and 141-144): log and
`keepTorrentAlive(torrent)`. -/
def streamErrorHandler (s : ServerState) (key : String) : ServerState :=
  keepTorrentAlive s key

/-- What the swarm engine does with a `client.add(magnet, cb)` call: either
the torrent becomes ready with a file list and the callback fires, or the
engine fails (invalid identifier, timeout, network failure) and the
callback never fires. -/
inductive EngineResult where
  | ok (files : List MediaFile)
  | fail
deriving DecidableEq

/-- Outcome of one `/stream` request: a response head together with the
server state after the handler's synchronous work, or a hang: the handler
is suspended on an `await` of a promise that never settles, so no response
is ever sent. -/
inductive HandlerOutcome where
  | response (head : ResponseHead) (s : ServerState)
  | hang (s : ServerState)
deriving DecidableEq

/-- The atomic synchronous prologue of the `/stream` handler on Node's
single-threaded event loop (lines 68-76): `client.get(magnet)`; when
absent, `client.add` runs synchronously inside the promise executor and
inserts the (not yet ready) torrent into the client's list before any other
request can run.  Returns the new state and the `tid` of the session this
caller will resolve to.  The torrent carries the file list the engine will
deliver at readiness. -/
def acquireStep (s : ServerState) (magnet : String) (files : List MediaFile) :
    ServerState × Nat :=
  match clientGet s magnet with
  | some t => (s, t.tid)
  | none =>
      let t : Torrent :=
        { tid := s.nextTid, infoHash := infoHashOfMagnet magnet, ready := true, files := files }
      ({ s with
          torrents := s.torrents ++ [t]
          nextTid := s.nextTid + 1
          addCount := s.addCount + 1 }, s.nextTid)

/-- `n` concurrent `/stream` requests for the same magnet: the event loop
runs their check-and-add prologues one after another. -/
def acquireAll (s : ServerState) (magnet : String) (files : List MediaFile) :
    Nat → ServerState × List Nat
  | 0 => (s, [])
  | n + 1 =>
      let p := acquireStep s magnet files
      let q := acquireAll p.1 magnet files n
      (q.1, p.2 :: q.2)

/-- The part of the `/stream` handler that runs once the torrent is ready
(lines 83-151): `keepTorrentAlive(torrent)`, select the first playable
file (404 when none), then either the range branch or the full-content
branch.  The wait for readiness suspends the handler without changing what
is sent, so it does not appear as a state change. -/
def serveTorrent (s : ServerState) (t : Torrent) (range : Option String) :
    HandlerOutcome :=
  let s1 := keepTorrentAlive s t.infoHash
  match selectVideoFile t.files with
  | none => .response (errorHead 404 "No video file found in torrent.") s1
  | some file =>
      match range with
      | some r => .response (rangeHead file r) s1
      | none => .response (fullHead file) s1

/-- The whole `GET /stream` handler (lines 62-158): 400 when the `magnet`
query parameter is missing; otherwise reuse the client's torrent or add a
new one.  When `client.add` fails, the wrapping promise never resolves and
never rejects (its `reject` is never called in the source), so the handler
hangs on the `await` with no response; `keepTorrentAlive` is never reached
on that path. -/
def handleStream (s : ServerState) (magnetQ : Option String) (range : Option String)
    (engine : String → EngineResult) : HandlerOutcome :=
  match magnetQ with
  | none => .response (errorHead 400 "Magnet link is required") s
  | some magnet =>
      match clientGet s magnet with
      | some t => serveTorrent s t range
      | none =>
          match engine magnet with
          | .fail => .hang { s with addCount := s.addCount + 1 }
          | .ok files =>
              let t : Torrent :=
                { tid := s.nextTid, infoHash := infoHashOfMagnet magnet
                  ready := true, files := files }
              let s1 :=
                { s with
                    torrents := s.torrents ++ [t]
                    nextTid := s.nextTid + 1
                    addCount := s.addCount + 1 }
              serveTorrent s1 t range

/-- The live timers whose closures hold the given info hash. -/
def timersFor (s : ServerState) (key : String) : List TimerRec :=
  s.timers.filter (fun tm => tm.key == key)

/-- Whether the `activeTorrents` map has an entry for the given info hash. -/
def cacheHas (s : ServerState) (key : String) : Bool :=
  (s.activeTorrents.find? (fun e => e.1 == key)).isSome

/-- The entry for `key` can be evicted by wall-clock time `u`: some live
timer for `key` has its deadline at or before `u`. -/
def evictableBy (s : ServerState) (key : String) (u : Nat) : Prop :=
  ∃ tm ∈ timersFor s key, tm.fireAt ≤ u

/-- The server state at process start: no torrents, no cache entries, no
timers, no open streams. -/
def emptyState : ServerState :=
  { torrents := []
    nextTid := 0
    addCount := 0
    activeTorrents := []
    timers := []
    nextTimerId := 0
    streams := []
    now := 0 }

/-- A state in which one session for identifier `"m"` is cached with an
armed timer: used to exercise the fatal-error path. -/
def servingState : ServerState :=
  { torrents := [{ tid := 0, infoHash := "m", ready := true, files := [{ name := "v.mp4", length := 1000 }] }]
    nextTid := 1
    addCount := 1
    activeTorrents := [("m", 0)]
    timers := [{ id := 0, key := "m", fireAt := 600000 }]
    nextTimerId := 1
    streams := []
    now := 0 }

/-- A state in which the session for `"m"` is cached and one client holds
an open read stream: used to exercise the disconnect path. -/
def midStreamState : ServerState :=
  { torrents := [{ tid := 0, infoHash := "m", ready := true, files := [{ name := "v.mp4", length := 1000 }] }]
    nextTid := 1
    addCount := 1
    activeTorrents := [("m", 0)]
    timers := [{ id := 0, key := "m", fireAt := 600000 }]
    nextTimerId := 1
    streams := [{ sid := 7, destroyed := false }, { sid := 8, destroyed := false }]
    now := 100 }

/-! Helper lemmas about `find?` and `filter` on association lists. -/

theorem find?_filter_of_imp {α : Type} (p q : α → Bool) (l : List α)
    (h : ∀ x, q x = true → p x = false) : (l.filter q).find? p = none := by
  apply List.find?_eq_none.mpr
  intro x hx
  have h2 := (List.mem_filter.mp hx).2
  simp [h x h2]

theorem find?_filter_ne_key (l : List (String × Nat)) (key : String) :
    (l.filter fun e => e.1 != key).find? (fun e => e.1 == key) = none := by
  apply find?_filter_of_imp
  intro x hx
  simp only [bne_iff_ne, ne_eq] at hx
  simpa using hx

theorem find?_append_of_none {α : Type} {p : α → Bool} {l : List α} (l2 : List α)
    (h : l.find? p = none) : (l ++ l2).find? p = l2.find? p := by
  rw [List.find?_append, h, Option.none_or]

theorem keepTorrentAlive_torrents (s : ServerState) (key : String) :
    (keepTorrentAlive s key).torrents = s.torrents := by
  rcases h : s.activeTorrents.find? (fun e => e.1 == key) with _ | e <;>
    simp [keepTorrentAlive, h]

theorem keepTorrentAlive_addCount (s : ServerState) (key : String) :
    (keepTorrentAlive s key).addCount = s.addCount := by
  rcases h : s.activeTorrents.find? (fun e => e.1 == key) with _ | e <;>
    simp [keepTorrentAlive, h]

theorem keepTorrentAlive_streams (s : ServerState) (key : String) :
    (keepTorrentAlive s key).streams = s.streams := by
  rcases h : s.activeTorrents.find? (fun e => e.1 == key) with _ | e <;>
    simp [keepTorrentAlive, h]

theorem keepTorrentAlive_activeTorrents (s : ServerState) (key : String) :
    (keepTorrentAlive s key).activeTorrents =
      s.activeTorrents.filter (fun e => e.1 != key) ++ [(key, s.nextTimerId)] := by
  rcases h : s.activeTorrents.find? (fun e => e.1 == key) with _ | e <;>
    simp [keepTorrentAlive, h]

theorem keepTorrentAlive_timer_mem (s : ServerState) (key : String) :
    ({ id := s.nextTimerId, key := key, fireAt := s.now + TORRENT_TTL } : TimerRec) ∈
      (keepTorrentAlive s key).timers := by
  rcases h : s.activeTorrents.find? (fun e => e.1 == key) with _ | e <;>
    simp [keepTorrentAlive, h]

theorem cacheHas_keepTorrentAlive (s : ServerState) (key : String) :
    cacheHas (keepTorrentAlive s key) key = true := by
  rw [cacheHas, keepTorrentAlive_activeTorrents,
    find?_append_of_none _ (find?_filter_ne_key s.activeTorrents key)]
  simp [List.find?]

/-! Lemmas about `acquireStep` and `acquireAll`. -/

theorem acquireStep_reuse (s : ServerState) (magnet : String) (files : List MediaFile)
    (t : Torrent) (h : clientGet s magnet = some t) :
    acquireStep s magnet files = (s, t.tid) := by
  unfold acquireStep
  rw [h]

theorem acquireStep_new (s : ServerState) (magnet : String) (files : List MediaFile)
    (hnew : clientGet s magnet = none) :
    acquireStep s magnet files =
      ({ s with
          torrents := s.torrents ++
            [{ tid := s.nextTid, infoHash := infoHashOfMagnet magnet
               ready := true, files := files }]
          nextTid := s.nextTid + 1
          addCount := s.addCount + 1 }, s.nextTid) := by
  unfold acquireStep
  rw [hnew]

theorem clientGet_acquireStep_new (s : ServerState) (magnet : String) (files : List MediaFile)
    (hnew : clientGet s magnet = none) :
    clientGet (acquireStep s magnet files).1 magnet =
      some { tid := s.nextTid, infoHash := infoHashOfMagnet magnet
             ready := true, files := files } := by
  rw [acquireStep_new s magnet files hnew]
  unfold clientGet at hnew ⊢
  rw [find?_append_of_none _ hnew]
  simp [List.find?]

theorem acquireAll_reuse (s : ServerState) (magnet : String) (files : List MediaFile)
    (t : Torrent) (h : clientGet s magnet = some t) (n : Nat) :
    acquireAll s magnet files n = (s, List.replicate n t.tid) := by
  induction n with
  | zero => rfl
  | succ n ih =>
      unfold acquireAll
      rw [acquireStep_reuse s magnet files t h]
      simp [ih, List.replicate_succ]

/-- C1: for all N concurrent `/stream` acquisitions of the same never-seen
content identifier, run in any order by the single-threaded event loop,
exactly one `client.add` (swarm-session creation) occurs, and every caller
resolves to the same session (`tid = s.nextTid`). -/
theorem c1_concurrent_dedup (s : ServerState) (magnet : String) (files : List MediaFile)
    (n : Nat) (hnew : clientGet s magnet = none) (hn : 1 ≤ n) :
    (acquireAll s magnet files n).1.addCount = s.addCount + 1 ∧
    (acquireAll s magnet files n).2.length = n ∧
    ∀ tid ∈ (acquireAll s magnet files n).2, tid = s.nextTid := by
  obtain ⟨m, rfl⟩ : ∃ m, n = m + 1 := ⟨n - 1, (Nat.succ_pred_eq_of_pos hn).symm⟩
  have hget := clientGet_acquireStep_new s magnet files hnew
  have hrest := acquireAll_reuse (acquireStep s magnet files).1 magnet files _ hget m
  have hstep := acquireStep_new s magnet files hnew
  refine ⟨?_, ?_, ?_⟩
  · show (acquireAll s magnet files (m + 1)).1.addCount = s.addCount + 1
    unfold acquireAll
    simp only [hrest]
    rw [hstep]
  · show (acquireAll s magnet files (m + 1)).2.length = m + 1
    unfold acquireAll
    simp [hrest]
  · intro tid htid
    unfold acquireAll at htid
    simp only [hrest] at htid
    rcases List.mem_cons.mp htid with h1 | h1
    · rw [h1, hstep]
    · exact List.eq_of_mem_replicate h1

/-- Witness for C1 at a concrete input: three concurrent requests for a
magnet unknown to the empty starting state. -/
theorem c1_concurrent_dedup_witness :
    clientGet emptyState "magnet:a" = none ∧ 1 ≤ 3 ∧
    ((acquireAll emptyState "magnet:a" [{ name := "v.mp4", length := 9 }] 3).1.addCount =
        emptyState.addCount + 1 ∧
      (acquireAll emptyState "magnet:a" [{ name := "v.mp4", length := 9 }] 3).2.length = 3 ∧
      ∀ tid ∈ (acquireAll emptyState "magnet:a" [{ name := "v.mp4", length := 9 }] 3).2,
        tid = emptyState.nextTid) :=
  ⟨by decide, by decide,
    c1_concurrent_dedup emptyState "magnet:a" [{ name := "v.mp4", length := 9 }] 3
      (by decide) (by decide)⟩

/-! Sliding-TTL lemmas for the timer cache. -/

theorem keepTorrentAlive_timers_fresh (s : ServerState) (key : String)
    (hfresh : s.activeTorrents.find? (fun e => e.1 == key) = none) :
    (keepTorrentAlive s key).timers =
      s.timers ++ [{ id := s.nextTimerId, key := key, fireAt := s.now + TORRENT_TTL }] := by
  simp [keepTorrentAlive, hfresh]

theorem keepTorrentAlive_timers_found (s : ServerState) (key : String) (tid : Nat)
    (hfound : s.activeTorrents.find? (fun e => e.1 == key) = some (key, tid)) :
    (keepTorrentAlive s key).timers =
      s.timers.filter (fun tm => tm.id != tid) ++
        [{ id := s.nextTimerId, key := key, fireAt := s.now + TORRENT_TTL }] := by
  simp [keepTorrentAlive, hfound]

theorem keepTorrentAlive_nextTimerId (s : ServerState) (key : String) :
    (keepTorrentAlive s key).nextTimerId = s.nextTimerId + 1 := by
  rcases h : s.activeTorrents.find? (fun e => e.1 == key) with _ | e <;>
    simp [keepTorrentAlive, h]

theorem cacheHas_fireTimer_found (s : ServerState) (tmId : Nat) (tm : TimerRec)
    (hfind : s.timers.find? (fun x => x.id == tmId && decide (x.fireAt ≤ s.now)) = some tm) :
    cacheHas (fireTimer s tmId) tm.key = false := by
  unfold fireTimer
  rw [hfind]
  show ((s.activeTorrents.filter (fun e => e.1 != tm.key)).find?
      (fun e => e.1 == tm.key)).isSome = false
  rw [find?_filter_ne_key]
  rfl

/-- C2: each `keepTorrentAlive` call cancels the previously armed timer
before arming one at `now + TTL`, so a refresh at time `t` followed by one
at `t + d` (`d < TTL`) leaves exactly one live timer for the entry, the
entry cannot be evicted before `t + d + TTL`, it can be evicted at
`t + d + TTL`, and the timer firing then removes the entry. -/
theorem c2_sliding_ttl (s0 : ServerState) (key : String) (t d : Nat)
    (hfresh : s0.activeTorrents.find? (fun e => e.1 == key) = none)
    (hnotimer : timersFor s0 key = [])
    (hids : ∀ tm ∈ s0.timers, tm.id < s0.nextTimerId)
    (hd : d < TORRENT_TTL) :
    timersFor (refreshAt s0 t key) key =
      [{ id := s0.nextTimerId, key := key, fireAt := t + TORRENT_TTL }] ∧
    timersFor (refreshAt (refreshAt s0 t key) (t + d) key) key =
      [{ id := s0.nextTimerId + 1, key := key, fireAt := t + d + TORRENT_TTL }] ∧
    (∀ u, u < t + d → ¬ evictableBy (refreshAt s0 t key) key u) ∧
    (∀ u, u < t + d + TORRENT_TTL →
        ¬ evictableBy (refreshAt (refreshAt s0 t key) (t + d) key) key u) ∧
    evictableBy (refreshAt (refreshAt s0 t key) (t + d) key) key (t + d + TORRENT_TTL) ∧
    cacheHas (refreshAt (refreshAt s0 t key) (t + d) key) key = true ∧
    cacheHas
      (fireTimer
        { refreshAt (refreshAt s0 t key) (t + d) key with now := t + d + TORRENT_TTL }
        (s0.nextTimerId + 1)) key = false := by
  have hfresh1 : ({ s0 with now := t } : ServerState).activeTorrents.find?
      (fun e => e.1 == key) = none := hfresh
  have hs1t : (refreshAt s0 t key).timers =
      s0.timers ++ [{ id := s0.nextTimerId, key := key, fireAt := t + TORRENT_TTL }] :=
    keepTorrentAlive_timers_fresh { s0 with now := t } key hfresh1
  have hs1a : (refreshAt s0 t key).activeTorrents =
      s0.activeTorrents.filter (fun e => e.1 != key) ++ [(key, s0.nextTimerId)] :=
    keepTorrentAlive_activeTorrents { s0 with now := t } key
  have hs1n : (refreshAt s0 t key).nextTimerId = s0.nextTimerId + 1 :=
    keepTorrentAlive_nextTimerId { s0 with now := t } key
  have hnotimer' : s0.timers.filter (fun tm => tm.key == key) = [] := hnotimer
  have hT1 : timersFor (refreshAt s0 t key) key =
      [{ id := s0.nextTimerId, key := key, fireAt := t + TORRENT_TTL }] := by
    rw [timersFor, hs1t, List.filter_append, hnotimer']
    simp
  have hlook1 : (refreshAt (refreshAt s0 t key) (t + d) key) =
      keepTorrentAlive { refreshAt s0 t key with now := t + d } key := rfl
  have hfound : ({ refreshAt s0 t key with now := t + d } : ServerState).activeTorrents.find?
      (fun e => e.1 == key) = some (key, s0.nextTimerId) := by
    show (refreshAt s0 t key).activeTorrents.find? (fun e => e.1 == key) = _
    rw [hs1a, find?_append_of_none _ (find?_filter_ne_key s0.activeTorrents key)]
    simp [List.find?]
  have hclear : ((refreshAt s0 t key).timers.filter (fun tm => tm.id != s0.nextTimerId)) =
      s0.timers := by
    rw [hs1t, List.filter_append]
    have h1 : s0.timers.filter (fun tm => tm.id != s0.nextTimerId) = s0.timers :=
      List.filter_eq_self.mpr (fun tm hm => by
        simpa [bne_iff_ne] using Nat.ne_of_lt (hids tm hm))
    simp [h1]
  have hs2t : (refreshAt (refreshAt s0 t key) (t + d) key).timers =
      s0.timers ++
        [{ id := s0.nextTimerId + 1, key := key, fireAt := t + d + TORRENT_TTL }] := by
    rw [hlook1, keepTorrentAlive_timers_found _ key s0.nextTimerId hfound]
    show (refreshAt s0 t key).timers.filter (fun tm => tm.id != s0.nextTimerId) ++ _ = _
    rw [hclear, hs1n]
  have hT2 : timersFor (refreshAt (refreshAt s0 t key) (t + d) key) key =
      [{ id := s0.nextTimerId + 1, key := key, fireAt := t + d + TORRENT_TTL }] := by
    rw [timersFor, hs2t, List.filter_append, hnotimer']
    simp
  refine ⟨hT1, hT2, ?_, ?_, ?_, ?_, ?_⟩
  · intro u hu hevict
    rcases hevict with ⟨tm, hmem, hfire⟩
    rw [hT1, List.mem_singleton] at hmem
    subst hmem
    have hf : t + TORRENT_TTL ≤ u := hfire
    omega
  · intro u hu hevict
    rcases hevict with ⟨tm, hmem, hfire⟩
    rw [hT2, List.mem_singleton] at hmem
    subst hmem
    have hf : t + d + TORRENT_TTL ≤ u := hfire
    omega
  · exact ⟨_, by rw [hT2]; exact List.mem_singleton.mpr rfl, Nat.le_refl _⟩
  · exact cacheHas_keepTorrentAlive { refreshAt s0 t key with now := t + d } key
  · have hfind : ({ refreshAt (refreshAt s0 t key) (t + d) key with
        now := t + d + TORRENT_TTL } : ServerState).timers.find?
        (fun tm => tm.id == s0.nextTimerId + 1 && decide (tm.fireAt ≤ t + d + TORRENT_TTL)) =
        some { id := s0.nextTimerId + 1, key := key, fireAt := t + d + TORRENT_TTL } := by
      show (refreshAt (refreshAt s0 t key) (t + d) key).timers.find? _ = _
      rw [hs2t]
      have hnone : s0.timers.find?
          (fun tm => tm.id == s0.nextTimerId + 1 && decide (tm.fireAt ≤ t + d + TORRENT_TTL)) =
          none := by
        apply List.find?_eq_none.mpr
        intro tm hm
        have : tm.id ≠ s0.nextTimerId + 1 := by
          have := hids tm hm
          omega
        simp [this]
      rw [find?_append_of_none _ hnone]
      simp [List.find?]
    exact cacheHas_fireTimer_found
      { refreshAt (refreshAt s0 t key) (t + d) key with now := t + d + TORRENT_TTL }
      (s0.nextTimerId + 1) _ hfind

/-- Witness for C2: refreshes at times 100 and 150 from the empty state. -/
theorem c2_sliding_ttl_witness :
    emptyState.activeTorrents.find? (fun e => e.1 == "m") = none ∧
    timersFor emptyState "m" = [] ∧
    (∀ tm ∈ emptyState.timers, tm.id < emptyState.nextTimerId) ∧
    50 < TORRENT_TTL ∧
    (timersFor (refreshAt emptyState 100 "m") "m" =
        [{ id := emptyState.nextTimerId, key := "m", fireAt := 100 + TORRENT_TTL }] ∧
      timersFor (refreshAt (refreshAt emptyState 100 "m") (100 + 50) "m") "m" =
        [{ id := emptyState.nextTimerId + 1, key := "m", fireAt := 100 + 50 + TORRENT_TTL }] ∧
      (∀ u, u < 100 + 50 → ¬ evictableBy (refreshAt emptyState 100 "m") "m" u) ∧
      (∀ u, u < 100 + 50 + TORRENT_TTL →
          ¬ evictableBy (refreshAt (refreshAt emptyState 100 "m") (100 + 50) "m") "m" u) ∧
      evictableBy (refreshAt (refreshAt emptyState 100 "m") (100 + 50) "m") "m"
        (100 + 50 + TORRENT_TTL) ∧
      cacheHas (refreshAt (refreshAt emptyState 100 "m") (100 + 50) "m") "m" = true ∧
      cacheHas
        (fireTimer
          { refreshAt (refreshAt emptyState 100 "m") (100 + 50) "m" with
              now := 100 + 50 + TORRENT_TTL }
          (emptyState.nextTimerId + 1)) "m" = false) :=
  ⟨by decide, by decide, by decide, by decide,
    c2_sliding_ttl emptyState "m" 100 50 (by decide) (by decide) (by decide) (by decide)⟩

/-! Range handling. -/

/-- C3: for the selected file of length `L`, header `bytes=100-199` yields
status 206 with `Content-Range: bytes 100-199/L` and `Content-Length`
100; header `bytes=500-` on a file of length 1000 yields
`Content-Range: bytes 500-999/1000` and `Content-Length` 500 (an absent
end defaults to `L - 1`); with no Range header the response has status 200
and `Content-Length` `L`. -/
theorem c3_range_correctness (s : ServerState) (t : Torrent) (f : MediaFile)
    (hsel : selectVideoFile t.files = some f) :
    (serveTorrent s t (some "bytes=100-199") =
        .response (rangeHead f "bytes=100-199") (keepTorrentAlive s t.infoHash) ∧
      (rangeHead f "bytes=100-199").status = 206 ∧
      (rangeHead f "bytes=100-199").contentRange =
        some ("bytes 100-199/" ++ toString f.length) ∧
      (rangeHead f "bytes=100-199").contentLength = some (.int 100)) ∧
    (f.length = 1000 →
      (rangeHead f "bytes=500-").contentRange = some "bytes 500-999/1000" ∧
      (rangeHead f "bytes=500-").contentLength = some (.int 500)) ∧
    (serveTorrent s t none = .response (fullHead f) (keepTorrentAlive s t.infoHash) ∧
      (fullHead f).status = 200 ∧
      (fullHead f).contentLength = some (.int (f.length : Int))) := by
  refine ⟨⟨?_, rfl, rfl, rfl⟩, ?_, ⟨?_, rfl, rfl⟩⟩
  · simp [serveTorrent, hsel]
  · intro h1000
    constructor
    · have hcr : (rangeHead f "bytes=500-").contentRange =
          some (contentRangeStr (parseRange "bytes=500-" f.length).start
            (parseRange "bytes=500-" f.length).stop f.length) := rfl
      rw [hcr, h1000]
      rfl
    · have hcl : (rangeHead f "bytes=500-").contentLength =
          some (parseRange "bytes=500-" f.length).chunkSize := rfl
      rw [hcl, h1000]
      rfl
  · simp [serveTorrent, hsel]

/-- Witness for C3 on a concrete session holding one mp4 file of length
1000. -/
theorem c3_range_correctness_witness :
    selectVideoFile [{ name := "v.mp4", length := 1000 }] =
      some { name := "v.mp4", length := 1000 } ∧
    ((serveTorrent emptyState
          { tid := 0, infoHash := "m", ready := true
            files := [{ name := "v.mp4", length := 1000 }] } (some "bytes=100-199") =
        .response (rangeHead { name := "v.mp4", length := 1000 } "bytes=100-199")
          (keepTorrentAlive emptyState "m") ∧
      (rangeHead { name := "v.mp4", length := 1000 } "bytes=100-199").status = 206 ∧
      (rangeHead { name := "v.mp4", length := 1000 } "bytes=100-199").contentRange =
        some ("bytes 100-199/" ++ toString (1000 : Nat)) ∧
      (rangeHead { name := "v.mp4", length := 1000 } "bytes=100-199").contentLength =
        some (.int 100)) ∧
    ((1000 : Nat) = 1000 →
      (rangeHead { name := "v.mp4", length := 1000 } "bytes=500-").contentRange =
        some "bytes 500-999/1000" ∧
      (rangeHead { name := "v.mp4", length := 1000 } "bytes=500-").contentLength =
        some (.int 500)) ∧
    (serveTorrent emptyState
          { tid := 0, infoHash := "m", ready := true
            files := [{ name := "v.mp4", length := 1000 }] } none =
        .response (fullHead { name := "v.mp4", length := 1000 })
          (keepTorrentAlive emptyState "m") ∧
      (fullHead { name := "v.mp4", length := 1000 }).status = 200 ∧
      (fullHead { name := "v.mp4", length := 1000 }).contentLength =
        some (.int ((1000 : Nat) : Int)))) :=
  ⟨by decide,
    c3_range_correctness emptyState
      { tid := 0, infoHash := "m", ready := true
        files := [{ name := "v.mp4", length := 1000 }] }
      { name := "v.mp4", length := 1000 } (by decide)⟩

/-- C4 as stated is false: `bytes=200-100` derives `start = 200` and
`end = 100`, so `start ≤ end` fails; the handler performs no validation. -/
theorem c4_counterexample :
    rangeWithinBounds "bytes=200-100" 1000 = false ∧
    (parseRange "bytes=200-100" 1000).start = .int 200 ∧
    (parseRange "bytes=200-100" 1000).stop = .int 100 := by
  decide

/-- C4 amended: the derived `end` defaults to `L - 1` when the client
leaves it unspecified (absent or empty second part), and the served chunk
size equals `end - start + 1`; the bounds `0 ≤ start ≤ end ≤ L - 1` are
not validated and can be violated. -/
theorem c4_range_arithmetic (r : String) (L : Nat) (si ei : Int)
    (hs : (parseRange r L).start = .int si) (he : (parseRange r L).stop = .int ei) :
    (parseRange r L).chunkSize = .int (ei - si + 1) ∧
    ((splitOnDash (stripBytesEq r))[1]? = none ∨
        (splitOnDash (stripBytesEq r))[1]? = some "" →
      (parseRange r L).stop = .int ((L : Int) - 1)) := by
  constructor
  · have hch : (parseRange r L).chunkSize =
        ((parseRange r L).stop.sub ((parseRange r L).start)).add (.int 1) := rfl
    rw [hch, hs, he]
    rfl
  · intro h
    rcases h with h | h <;> simp [parseRange, h]

/-- Witness for C4 amended: `bytes=500-` on a file of length 1000. -/
theorem c4_range_arithmetic_witness :
    (parseRange "bytes=500-" 1000).start = .int 500 ∧
    (parseRange "bytes=500-" 1000).stop = .int 999 ∧
    ((parseRange "bytes=500-" 1000).chunkSize = .int (999 - 500 + 1) ∧
      ((splitOnDash (stripBytesEq "bytes=500-"))[1]? = none ∨
          (splitOnDash (stripBytesEq "bytes=500-"))[1]? = some "" →
        (parseRange "bytes=500-" 1000).stop = .int (((1000 : Nat) : Int) - 1))) :=
  ⟨by decide, by decide,
    c4_range_arithmetic "bytes=500-" 1000 500 999 (by decide) (by decide)⟩

/-- C10: any Range header at all yields status 206 (never 416): the parsed
`start`/`end` are echoed into `Content-Range` and `Content-Length` and
passed to `createReadStream` without validation. -/
theorem c10_unvalidated_range (s : ServerState) (t : Torrent) (f : MediaFile) (r : String)
    (hsel : selectVideoFile t.files = some f) :
    serveTorrent s t (some r) =
      .response (rangeHead f r) (keepTorrentAlive s t.infoHash) ∧
    (rangeHead f r).status = 206 ∧
    (rangeHead f r).status ≠ 416 ∧
    (rangeHead f r).contentRange =
      some (contentRangeStr (parseRange r f.length).start
        (parseRange r f.length).stop f.length) ∧
    (rangeHead f r).contentLength = some (parseRange r f.length).chunkSize ∧
    (rangeHead f r).readStream =
      some (f.name, some ((parseRange r f.length).start, (parseRange r f.length).stop)) := by
  refine ⟨?_, rfl, ?_, rfl, rfl, rfl⟩
  · simp [serveTorrent, hsel]
  · intro h
    exact absurd (show (206 : Nat) = 416 from h) (by decide)

/-- Witness for C10 at a malformed range: `bytes=abc-xyz` is still served
as 206, with `NaN` bounds echoed into `Content-Range` and handed to the
read stream. -/
theorem c10_unvalidated_range_witness :
    selectVideoFile [{ name := "w.mkv", length := 100 }] =
      some { name := "w.mkv", length := 100 } ∧
    (serveTorrent emptyState
        { tid := 0, infoHash := "m2", ready := true
          files := [{ name := "w.mkv", length := 100 }] } (some "bytes=abc-xyz") =
      .response (rangeHead { name := "w.mkv", length := 100 } "bytes=abc-xyz")
        (keepTorrentAlive emptyState "m2") ∧
    (rangeHead { name := "w.mkv", length := 100 } "bytes=abc-xyz").status = 206 ∧
    (rangeHead { name := "w.mkv", length := 100 } "bytes=abc-xyz").status ≠ 416 ∧
    (rangeHead { name := "w.mkv", length := 100 } "bytes=abc-xyz").contentRange =
      some (contentRangeStr (parseRange "bytes=abc-xyz" 100).start
        (parseRange "bytes=abc-xyz" 100).stop 100) ∧
    (rangeHead { name := "w.mkv", length := 100 } "bytes=abc-xyz").contentLength =
      some (parseRange "bytes=abc-xyz" 100).chunkSize ∧
    (rangeHead { name := "w.mkv", length := 100 } "bytes=abc-xyz").readStream =
      some ("w.mkv", some ((parseRange "bytes=abc-xyz" 100).start,
        (parseRange "bytes=abc-xyz" 100).stop))) :=
  ⟨by decide,
    c10_unvalidated_range emptyState
      { tid := 0, infoHash := "m2", ready := true
        files := [{ name := "w.mkv", length := 100 }] }
      { name := "w.mkv", length := 100 } "bytes=abc-xyz" (by decide)⟩

/-! File selection, missing parameter, failure paths. -/

theorem find?_layout {α : Type} (p : α → Bool) :
    ∀ l : List α, ∀ f, l.find? p = some f →
      p f = true ∧ ∃ l1 l2, l = l1 ++ f :: l2 ∧ ∀ g ∈ l1, p g = false := by
  intro l
  induction l with
  | nil => intro f h; cases h
  | cons a l ih =>
      intro f h
      rw [List.find?_cons] at h
      cases hpa : p a with
      | true =>
          rw [hpa] at h
          cases h
          exact ⟨hpa, [], l, rfl, by simp⟩
      | false =>
          rw [hpa] at h
          obtain ⟨hp, l1, l2, heq, hall⟩ := ih f h
          refine ⟨hp, a :: l1, l2, by rw [heq]; rfl, ?_⟩
          intro g hg
          rcases List.mem_cons.mp hg with h1 | h1
          · rw [h1]; exact hpa
          · exact hall g h1

/-- C8: the served file is the first file of the session whose name ends
in `.mp4`, `.mkv` or `.avi`; when no file matches, the response is the 404
error body and no read stream is opened. -/
theorem c8_playable_file_selection (s : ServerState) (t : Torrent) (r : Option String) :
    (∀ f, selectVideoFile t.files = some f →
        isVideoFile f = true ∧
        ∃ l1 l2, t.files = l1 ++ f :: l2 ∧ ∀ g ∈ l1, isVideoFile g = false) ∧
    ((∀ g ∈ t.files, isVideoFile g = false) →
      serveTorrent s t r =
        .response (errorHead 404 "No video file found in torrent.")
          (keepTorrentAlive s t.infoHash) ∧
      (errorHead 404 "No video file found in torrent.").status = 404 ∧
      (errorHead 404 "No video file found in torrent.").readStream = none) := by
  constructor
  · intro f h
    exact find?_layout isVideoFile t.files f h
  · intro hnone
    have hsel : selectVideoFile t.files = none := by
      apply List.find?_eq_none.mpr
      intro g hg
      simp [hnone g hg]
    exact ⟨by simp [serveTorrent, hsel], rfl, rfl⟩

/-- Witness for C8 on a session holding only non-media files. -/
theorem c8_playable_file_selection_witness :
    (∀ f, selectVideoFile [{ name := "a.txt", length := 5 }, { name := "b.srt", length := 2 }] =
        some f →
      isVideoFile f = true ∧
      ∃ l1 l2, [({ name := "a.txt", length := 5 } : MediaFile), { name := "b.srt", length := 2 }] =
          l1 ++ f :: l2 ∧ ∀ g ∈ l1, isVideoFile g = false) ∧
    ((∀ g ∈ [({ name := "a.txt", length := 5 } : MediaFile), { name := "b.srt", length := 2 }],
        isVideoFile g = false) →
      serveTorrent emptyState
          { tid := 0, infoHash := "m4", ready := true
            files := [{ name := "a.txt", length := 5 }, { name := "b.srt", length := 2 }] } none =
        .response (errorHead 404 "No video file found in torrent.")
          (keepTorrentAlive emptyState "m4") ∧
      (errorHead 404 "No video file found in torrent.").status = 404 ∧
      (errorHead 404 "No video file found in torrent.").readStream = none) :=
  c8_playable_file_selection emptyState
    { tid := 0, infoHash := "m4", ready := true
      files := [{ name := "a.txt", length := 5 }, { name := "b.srt", length := 2 }] } none

/-- C9: a `/stream` request without the `magnet` query parameter is
answered immediately with status 400 and a structured error body, no read
stream is opened, and the state in the outcome is exactly the incoming
state: no cache mutation, no timer change. -/
theorem c9_missing_magnet (s : ServerState) (r : Option String)
    (engine : String → EngineResult) :
    handleStream s none r engine =
      .response (errorHead 400 "Magnet link is required") s ∧
    (errorHead 400 "Magnet link is required").status = 400 ∧
    (errorHead 400 "Magnet link is required").jsonError = some "Magnet link is required" ∧
    (errorHead 400 "Magnet link is required").readStream = none :=
  ⟨rfl, rfl, rfl, rfl⟩

/-- C5: when the engine cannot create a session, the handler's promise
never settles (its `reject` is never called), so the request hangs: no
response of any status is produced, and neither the `activeTorrents` table
nor the timers change. -/
theorem c5_session_create_failure (s : ServerState) (magnet : String) (r : Option String)
    (hnew : clientGet s magnet = none) :
    handleStream s (some magnet) r (fun _ => EngineResult.fail) =
      .hang { s with addCount := s.addCount + 1 } ∧
    (∀ head s', handleStream s (some magnet) r (fun _ => EngineResult.fail) ≠
        .response head s') ∧
    ({ s with addCount := s.addCount + 1 } : ServerState).activeTorrents =
      s.activeTorrents ∧
    ({ s with addCount := s.addCount + 1 } : ServerState).timers = s.timers := by
  have h1 : handleStream s (some magnet) r (fun _ => EngineResult.fail) =
      .hang { s with addCount := s.addCount + 1 } := by
    simp only [handleStream, hnew]
  refine ⟨h1, ?_, rfl, rfl⟩
  intro head s' hcontra
  rw [h1] at hcontra
  exact HandlerOutcome.noConfusion hcontra

/-- Witness for C5: a failing engine on a magnet unknown to the empty
state. -/
theorem c5_session_create_failure_witness :
    clientGet emptyState "magnet:bad" = none ∧
    (handleStream emptyState (some "magnet:bad") none (fun _ => EngineResult.fail) =
        .hang { emptyState with addCount := emptyState.addCount + 1 } ∧
      (∀ head s', handleStream emptyState (some "magnet:bad") none
          (fun _ => EngineResult.fail) ≠ .response head s') ∧
      ({ emptyState with addCount := emptyState.addCount + 1 } : ServerState).activeTorrents =
        emptyState.activeTorrents ∧
      ({ emptyState with addCount := emptyState.addCount + 1 } : ServerState).timers =
        emptyState.timers) :=
  ⟨by decide, c5_session_create_failure emptyState "magnet:bad" none (by decide)⟩

/-- C6: the `torrent.on('error')` handler destroys the torrent and deletes
its cache entry, so the next request for the same identifier finds nothing
and performs a fresh `client.add` whose session is distinct from every
session that existed before the error. -/
theorem c6_fatal_error_eviction (s : ServerState) (magnet : String) (files : List MediaFile)
    (htids : ∀ t0 ∈ s.torrents, t0.tid < s.nextTid) :
    clientGet (torrentErrorHandler s (infoHashOfMagnet magnet)) magnet = none ∧
    cacheHas (torrentErrorHandler s (infoHashOfMagnet magnet)) (infoHashOfMagnet magnet) =
      false ∧
    (acquireStep (torrentErrorHandler s (infoHashOfMagnet magnet)) magnet files).1.addCount =
      s.addCount + 1 ∧
    (acquireStep (torrentErrorHandler s (infoHashOfMagnet magnet)) magnet files).2 =
      s.nextTid ∧
    ∀ t0 ∈ s.torrents,
      (acquireStep (torrentErrorHandler s (infoHashOfMagnet magnet)) magnet files).2 ≠
        t0.tid := by
  have hget : clientGet (torrentErrorHandler s (infoHashOfMagnet magnet)) magnet = none := by
    show ((s.torrents.filter (fun t => t.infoHash != infoHashOfMagnet magnet)).find?
        (fun t => t.infoHash == infoHashOfMagnet magnet)) = none
    apply find?_filter_of_imp
    intro x hx
    simp only [bne_iff_ne, ne_eq] at hx
    simpa using hx
  have hstep :=
    acquireStep_new (torrentErrorHandler s (infoHashOfMagnet magnet)) magnet files hget
  refine ⟨hget, ?_, ?_, ?_, ?_⟩
  · show ((s.activeTorrents.filter (fun e => e.1 != infoHashOfMagnet magnet)).find?
        (fun e => e.1 == infoHashOfMagnet magnet)).isSome = false
    rw [find?_filter_ne_key]
    rfl
  · rw [hstep]
    rfl
  · rw [hstep]
    rfl
  · intro t0 hmem
    rw [hstep]
    show s.nextTid ≠ t0.tid
    have := htids t0 hmem
    omega

/-- Witness for C6: the serving state holding the session for `"m"`. -/
theorem c6_fatal_error_eviction_witness :
    (∀ t0 ∈ servingState.torrents, t0.tid < servingState.nextTid) ∧
    (clientGet (torrentErrorHandler servingState (infoHashOfMagnet "m")) "m" = none ∧
      cacheHas (torrentErrorHandler servingState (infoHashOfMagnet "m"))
        (infoHashOfMagnet "m") = false ∧
      (acquireStep (torrentErrorHandler servingState (infoHashOfMagnet "m")) "m"
          []).1.addCount = servingState.addCount + 1 ∧
      (acquireStep (torrentErrorHandler servingState (infoHashOfMagnet "m")) "m" []).2 =
        servingState.nextTid ∧
      ∀ t0 ∈ servingState.torrents,
        (acquireStep (torrentErrorHandler servingState (infoHashOfMagnet "m")) "m" []).2 ≠
          t0.tid) :=
  ⟨by decide, c6_fatal_error_eviction servingState "m" [] (by decide)⟩

/-- C7: the `res.on('close')` handler destroys only that request's read
stream and refreshes liveness: the session stays in the client, its cache
entry stays present with a freshly armed timer, other streams are
untouched, and a subsequent acquisition reuses the same session with no
new `client.add`. -/
theorem c7_disconnect_survives (s : ServerState) (magnet : String) (t : Torrent)
    (sid : Nat) (files : List MediaFile) (hget : clientGet s magnet = some t) :
    clientGet (resCloseHandler s sid t.infoHash) magnet = some t ∧
    cacheHas (resCloseHandler s sid t.infoHash) t.infoHash = true ∧
    ({ id := s.nextTimerId, key := t.infoHash, fireAt := s.now + TORRENT_TTL } : TimerRec) ∈
      (resCloseHandler s sid t.infoHash).timers ∧
    acquireStep (resCloseHandler s sid t.infoHash) magnet files =
      (resCloseHandler s sid t.infoHash, t.tid) ∧
    (∀ st ∈ s.streams, st.sid ≠ sid →
      st ∈ (resCloseHandler s sid t.infoHash).streams) ∧
    ∀ st ∈ s.streams, st.sid = sid →
      ({ st with destroyed := true } : StreamHandle) ∈
        (resCloseHandler s sid t.infoHash).streams := by
  have htorr : (resCloseHandler s sid t.infoHash).torrents = s.torrents := by
    unfold resCloseHandler
    rw [keepTorrentAlive_torrents]
  have hget' : clientGet (resCloseHandler s sid t.infoHash) magnet = some t := by
    show (resCloseHandler s sid t.infoHash).torrents.find?
      (fun x => x.infoHash == infoHashOfMagnet magnet) = some t
    rw [htorr]
    exact hget
  have hstr : (resCloseHandler s sid t.infoHash).streams =
      s.streams.map (fun st => if st.sid == sid then { st with destroyed := true } else st) := by
    unfold resCloseHandler
    rw [keepTorrentAlive_streams]
  refine ⟨hget', ?_, ?_, acquireStep_reuse _ magnet files t hget', ?_, ?_⟩
  · exact cacheHas_keepTorrentAlive _ t.infoHash
  · exact keepTorrentAlive_timer_mem _ t.infoHash
  · intro st hmem hne
    have hfix : (if st.sid == sid then ({ st with destroyed := true } : StreamHandle) else st) =
        st := by
      simp [hne]
    rw [hstr, List.mem_map]
    exact ⟨st, hmem, hfix⟩
  · intro st hmem heq
    have hfix : (if st.sid == sid then ({ st with destroyed := true } : StreamHandle) else st) =
        { st with destroyed := true } := by
      simp [heq]
    rw [hstr, List.mem_map]
    exact ⟨st, hmem, hfix⟩

/-- Witness for C7: client of stream 7 disconnects mid-stream in the
mid-stream state. -/
theorem c7_disconnect_survives_witness :
    clientGet midStreamState "m" =
      some { tid := 0, infoHash := "m", ready := true
             files := [{ name := "v.mp4", length := 1000 }] } ∧
    (clientGet (resCloseHandler midStreamState 7 "m") "m" =
        some { tid := 0, infoHash := "m", ready := true
               files := [{ name := "v.mp4", length := 1000 }] } ∧
      cacheHas (resCloseHandler midStreamState 7 "m") "m" = true ∧
      ({ id := midStreamState.nextTimerId, key := "m"
         fireAt := midStreamState.now + TORRENT_TTL } : TimerRec) ∈
        (resCloseHandler midStreamState 7 "m").timers ∧
      acquireStep (resCloseHandler midStreamState 7 "m") "m" [] =
        (resCloseHandler midStreamState 7 "m", 0) ∧
      (∀ st ∈ midStreamState.streams, st.sid ≠ 7 →
        st ∈ (resCloseHandler midStreamState 7 "m").streams) ∧
      ∀ st ∈ midStreamState.streams, st.sid = 7 →
        ({ st with destroyed := true } : StreamHandle) ∈
          (resCloseHandler midStreamState 7 "m").streams) :=
  ⟨by decide,
    c7_disconnect_survives midStreamState "m"
      { tid := 0, infoHash := "m", ready := true
        files := [{ name := "v.mp4", length := 1000 }] } 7 [] (by decide)⟩

end Watchify
